import Mathlib

/-!
Verification of the directory-size caching and background-refresh engine of
the disk-space monitor (source: src/disk-space-view-pro.py).

The Python source is shallowly embedded: pure computations become Lean
functions over Nat/Int/String, JSON cache files become an inductive
`CacheFile`, the filesystem becomes explicit environments of functions,
and every fallible operation returns an `Option`.  Wall-clock time is an
explicit `Int` parameter (seconds); within one modelled call time does not
advance, matching the source's use of a single `time.time()` reading per
check.
-/

namespace DiskView

/-! ## Configuration constants (lines 142-148 of the source) -/

/-- FOLDER_CACHE_VALIDITY_SECONDS = 12 * 3600: TTL of a per-directory cache
record (`.mosFolderSize`). -/
def FOLDER_CACHE_VALIDITY_SECONDS : Int := 12 * 3600

/-- DISK_CACHE_VALIDITY_SECONDS = 3 * 3600: TTL of a per-volume snapshot. -/
def DISK_CACHE_VALIDITY_SECONDS : Int := 3 * 3600

/-! ## Signature and cache codec

`calculate_folder_signature` (source lines 219-225) stats the directory and
hashes the string `f"{folder_path}:{stat.st_dev}:{stat.st_ino}"` with MD5,
keeping the first 8 hex characters.  The `os.stat` result is modelled as an
`Option (Nat × Nat)` (device id, inode); `none` models any exception, in
which case the source returns the sentinel `"00000000"`.

MD5 itself (Python's `hashlib.md5(...).hexdigest()`) is embedded as a pure
function on byte lists, with all 32-bit arithmetic made explicit as
`% 2 ^ 32`.  Paths are ASCII in all statements below, so UTF-8 encoding is
modelled as `Char.toNat` per character. -/

def M32 : Nat := 4294967296

def add32 (a b : Nat) : Nat := (a + b) % M32

def not32 (x : Nat) : Nat := x ^^^ (M32 - 1)

def rotl32 (x n : Nat) : Nat := ((x <<< n) % M32) ||| (x >>> (32 - n))

def md5F (b c d : Nat) : Nat := (b &&& c) ||| (not32 b &&& d)

def md5G (b c d : Nat) : Nat := (d &&& b) ||| (not32 d &&& c)

def md5H (b c d : Nat) : Nat := b ^^^ c ^^^ d

def md5I (b c d : Nat) : Nat := c ^^^ (b ||| not32 d)

/-- Round constants `K[i] = floor(abs(sin(i+1)) * 2^32)` of MD5. -/
def md5K : List Nat :=
  [3614090360, 3905402710, 606105819, 3250441966, 4118548399, 1200080426,
   2821735955, 4249261313, 1770035416, 2336552879, 4294925233, 2304563134,
   1804603682, 4254626195, 2792965006, 1236535329, 4129170786, 3225465664,
   643717713, 3921069994, 3593408605, 38016083, 3634488961, 3889429448,
   568446438, 3275163606, 4107603335, 1163531501, 2850285829, 4243563512,
   1735328473, 2368359562, 4294588738, 2272392833, 1839030562, 4259657740,
   2763975236, 1272893353, 4139469664, 3200236656, 681279174, 3936430074,
   3572445317, 76029189, 3654602809, 3873151461, 530742520, 3299628645,
   4096336452, 1126891415, 2878612391, 4237533241, 1700485571, 2399980690,
   4293915773, 2240044497, 1873313359, 4264355552, 2734768916, 1309151649,
   4149444226, 3174756917, 718787259, 3951481745]

/-- Per-round left-rotation amounts of MD5. -/
def md5S : List Nat :=
  [7, 12, 17, 22, 7, 12, 17, 22, 7, 12, 17, 22, 7, 12, 17, 22,
   5, 9, 14, 20, 5, 9, 14, 20, 5, 9, 14, 20, 5, 9, 14, 20,
   4, 11, 16, 23, 4, 11, 16, 23, 4, 11, 16, 23, 4, 11, 16, 23,
   6, 10, 15, 21, 6, 10, 15, 21, 6, 10, 15, 21, 6, 10, 15, 21]

/-- One MD5 round on the state `(a, b, c, d)` with message words `w`. -/
def md5Round (w : List Nat) (st : Nat × Nat × Nat × Nat) (i : Nat) :
    Nat × Nat × Nat × Nat :=
  let a := st.1
  let b := st.2.1
  let c := st.2.2.1
  let d := st.2.2.2
  let fg : Nat × Nat :=
    if i < 16 then (md5F b c d, i)
    else if i < 32 then (md5G b c d, (5 * i + 1) % 16)
    else if i < 48 then (md5H b c d, (3 * i + 5) % 16)
    else (md5I b c d, (7 * i) % 16)
  let tmp := add32 (add32 (add32 a fg.1) (md5K.getD i 0)) (w.getD fg.2 0)
  (d, add32 b (rotl32 tmp (md5S.getD i 0)), b, c)

/-- Process one 64-byte chunk, updating the running MD5 state. -/
def md5Chunk (st : Nat × Nat × Nat × Nat) (chunk : List Nat) :
    Nat × Nat × Nat × Nat :=
  let w := (List.range 16).map fun j =>
    chunk.getD (4 * j) 0 + 256 * chunk.getD (4 * j + 1) 0 +
    65536 * chunk.getD (4 * j + 2) 0 + 16777216 * chunk.getD (4 * j + 3) 0
  let r := (List.range 64).foldl (md5Round w) st
  (add32 st.1 r.1, add32 st.2.1 r.2.1, add32 st.2.2.1 r.2.2.1,
   add32 st.2.2.2 r.2.2.2)

/-- Little-endian byte decomposition, `n` bytes. -/
def leBytes (n : Nat) (x : Nat) : List Nat :=
  (List.range n).map fun i => (x >>> (8 * i)) % 256

/-- MD5 padding: a 0x80 byte, zeros to 56 mod 64, then the bit length as a
64-bit little-endian integer. -/
def md5Pad (msg : List Nat) : List Nat :=
  msg ++ [128] ++ List.replicate ((119 - msg.length % 64) % 64) 0 ++
    leBytes 8 ((8 * msg.length) % (2 ^ 64))

/-- Fold `md5Chunk` over successive 64-byte chunks; `fuel` bounds the
number of chunks (the byte count is always enough fuel, since each step
consumes a nonempty 64-byte prefix). -/
def md5ChunksGo : Nat → Nat × Nat × Nat × Nat → List Nat →
    Nat × Nat × Nat × Nat
  | 0, st, _ => st
  | _, st, [] => st
  | fuel + 1, st, b :: rest =>
    md5ChunksGo fuel (md5Chunk st ((b :: rest).take 64)) ((b :: rest).drop 64)

def md5Chunks (st : Nat × Nat × Nat × Nat) (l : List Nat) :
    Nat × Nat × Nat × Nat :=
  md5ChunksGo l.length st l

/-- The 16 digest bytes of MD5. -/
def md5Bytes (msg : List Nat) : List Nat :=
  let r := md5Chunks (1732584193, 4023233417, 2562383102, 271733878)
    (md5Pad msg)
  leBytes 4 r.1 ++ leBytes 4 r.2.1 ++ leBytes 4 r.2.2.1 ++ leBytes 4 r.2.2.2

def hexDigit (n : Nat) : Char :=
  if n < 10 then Char.ofNat (48 + n) else Char.ofNat (87 + n)

def hexByte (b : Nat) : List Char := [hexDigit (b / 16 % 16), hexDigit (b % 16)]

/-- Characters of `hashlib.md5(msg).hexdigest()`. -/
def md5HexChars (msg : List Nat) : List Char :=
  (md5Bytes msg).foldr (fun b acc => hexByte b ++ acc) []

def md5Hex (msg : List Nat) : String := String.mk (md5HexChars msg)

/-- UTF-8 bytes of an ASCII string. -/
def strBytes (s : String) : List Nat := s.data.map Char.toNat

/-- Source lines 219-225: hash `f"{folder_path}:{stat.st_dev}:{stat.st_ino}"`
and keep the first 8 hex characters; on any exception return `"00000000"`.
`statOf` is the `os.stat` result: `some (st_dev, st_ino)` when the path is
accessible, `none` when stat raises. -/
def calculate_folder_signature (statOf : Option (Nat × Nat))
    (folder_path : String) : String :=
  match statOf with
  | none => "00000000"
  | some di =>
    String.mk ((md5HexChars (strBytes
      (folder_path ++ ":" ++ toString di.1 ++ ":" ++ toString di.2))).take 8)

/-! ## Per-directory cache records (`.mosFolderSize`)

A cache file (source lines 228-290) is JSON with fields
`timestamp`, `size`, `signature` (plus `version` and `generated_by`, which
the reader never looks at).  `read_cached_folder_size` returns `None` when
the file is absent, fails to decode, lacks one of the three required
fields, is older than the folder TTL, or carries a signature different
from the directory's current signature; otherwise it returns the stored
size.  Timestamps are seconds as integers. -/

structure RawRecord where
  timestamp : Option Int
  size : Option Int
  signature : Option String
deriving DecidableEq, Repr

inductive CacheFile where
  /-- The cache file does not exist. -/
  | absent
  /-- The file exists but `json.load` fails (malformed payload). -/
  | malformed
  /-- The file decodes to a JSON object; each required field is present
  (`some`) or missing (`none`). -/
  | record (r : RawRecord)
deriving DecidableEq, Repr

/-- Source lines 228-258.  `now` is the `time.time()` reading, `curSig` the
directory's current signature (`calculate_folder_signature` of its path). -/
def read_cached_folder_size (now : Int) (curSig : String) :
    CacheFile → Option Int
  | .absent => none
  | .malformed => none
  | .record r =>
    match r.timestamp, r.size, r.signature with
    | some t, some s, some sg =>
      if now - t > FOLDER_CACHE_VALIDITY_SECONDS then none
      else if sg ≠ curSig then none
      else some s
    | _, _, _ => none

/-! ## Helper lemmas about the codec -/

theorem length_hexFold (l : List Nat) :
    (l.foldr (fun b acc => hexByte b ++ acc) ([] : List Char)).length =
      2 * l.length := by
  induction l with
  | nil => rfl
  | cons b rest ih =>
    show (hexByte b ++ _).length = _
    rw [List.length_append, ih]
    simp [hexByte]
    omega

theorem length_leBytes (n x : Nat) : (leBytes n x).length = n := by
  simp [leBytes]

theorem length_md5Bytes (msg : List Nat) : (md5Bytes msg).length = 16 := by
  simp [md5Bytes, length_leBytes]

theorem length_md5HexChars (msg : List Nat) :
    (md5HexChars msg).length = 32 := by
  simp [md5HexChars, length_hexFold, length_md5Bytes]

/-! ## Claim theorems for the codec -/

/-- C2: the cached-size lookup returns the stored size if and only if the
cache file decodes to a record carrying all of `timestamp`, `size` and
`signature`, its age `now - timestamp` is at most the 12-hour folder TTL,
and the stored signature equals the directory's current signature; in every
other case (absent, malformed, incomplete, expired, or signature mismatch)
it returns `none`.  In particular a record with
`timestamp = now - TTL - 1` is treated as absent.  The embedded reader is a
total function, so it never raises. -/
theorem c2_read_cached_folder_size (now : Int) (curSig : String)
    (f : CacheFile) :
    (∀ v : Int, read_cached_folder_size now curSig f = some v ↔
      ∃ t : Int, ∃ sg : String,
        f = CacheFile.record ⟨some t, some v, some sg⟩ ∧
        now - t ≤ FOLDER_CACHE_VALIDITY_SECONDS ∧ sg = curSig) ∧
    (∀ sz : Int, ∀ sg : String,
      read_cached_folder_size now curSig
        (CacheFile.record
          ⟨some (now - FOLDER_CACHE_VALIDITY_SECONDS - 1), some sz, some sg⟩)
        = none) := by
  constructor
  · intro v
    cases f with
    | absent => simp [read_cached_folder_size]
    | malformed => simp [read_cached_folder_size]
    | record r =>
      obtain ⟨ot, os, og⟩ := r
      cases ot with
      | none => simp [read_cached_folder_size]
      | some t =>
        cases os with
        | none => simp [read_cached_folder_size]
        | some s =>
          cases og with
          | none => simp [read_cached_folder_size]
          | some sg =>
            simp only [read_cached_folder_size]
            constructor
            · intro h
              split_ifs at h with h1 h2
              obtain rfl : s = v := Option.some.inj h
              exact ⟨t, sg, rfl, by omega, not_not.mp h2⟩
            · rintro ⟨t2, sg2, heq, hle, hsg⟩
              have h3 := heq
              simp only [CacheFile.record.injEq, RawRecord.mk.injEq,
                Option.some.injEq] at h3
              obtain ⟨rfl, rfl, rfl⟩ := h3
              rw [if_neg (by omega), if_neg (by simp [hsg])]
  · intro sz sg
    simp only [read_cached_folder_size]
    rw [if_pos (by omega)]

set_option maxRecDepth 100000 in
/-- C7 counterexample: the signature token is not a function of the device
id and inode number alone.  The source hashes
`f"{folder_path}:{st_dev}:{st_ino}"`, so the path string itself enters the
hash: the paths "/a" and "/b" with the same device id 1 and inode 2 yield
the distinct tokens "b17fec92" and "5c90f2bb", refuting the claim that two
path strings naming the same device and inode yield the same token. -/
theorem c7_counterexample :
    calculate_folder_signature (some (1, 2)) "/a" = "b17fec92" ∧
    calculate_folder_signature (some (1, 2)) "/b" = "5c90f2bb" ∧
    calculate_folder_signature (some (1, 2)) "/a" ≠
      calculate_folder_signature (some (1, 2)) "/b" := by
  refine ⟨by decide, by decide, by decide⟩

/-- C7 (amended): the signature token is derived deterministically from the
path string together with the device id and inode number (so it is stable
across calls for the same unrecreated directory, but two different path
strings naming the same device and inode need not agree); it is always an
8-character token, and for every inaccessible path the function returns the
fixed sentinel "00000000" instead of raising. -/
theorem c7_signature (statOf : Option (Nat × Nat)) (p : String) :
    (statOf = none → calculate_folder_signature statOf p = "00000000") ∧
    (calculate_folder_signature statOf p).length = 8 ∧
    (∀ q : String, ∀ di : Nat × Nat, q = p → statOf = some di →
      calculate_folder_signature statOf q =
        calculate_folder_signature statOf p) := by
  refine ⟨fun h => by subst h; rfl, ?_, fun q di hq _ => by subst hq; rfl⟩
  cases statOf with
  | none => rfl
  | some di =>
    show (String.mk _).length = 8
    simp [String.length, List.length_take, length_md5HexChars]

/-- Witness for C7: the sentinel and token-length facts at concrete
inputs. -/
theorem c7_signature_witness :
    calculate_folder_signature none "/x" = "00000000" ∧
    (calculate_folder_signature (some (1, 2)) "/a").length = 8 :=
  ⟨(c7_signature none "/x").1 rfl, (c7_signature (some (1, 2)) "/a").2.1⟩

/-! ## Folder size calculator (source lines 293-329)

`calculate_folder_size_with_cache` first consults the directory's own cache
record; on a miss it walks the subtree with `os.walk`, pruning every
subdirectory that has a valid cache record (adding the cached size
instead), summing file sizes and skipping per-file stat errors, writes a
fresh cache record when the computed total is positive, and returns 0 on
any unexpected failure of the walk.

The subtree is a `DirTree`: a directory node carries its files' sizes — a
file whose `os.path.getsize` raises is `none` — and its named
subdirectories; the `broken` constructor marks a node whose traversal
raises an unexpected error (the situation the outer `except` guards
against).  The walk returns `none` exactly when such an error occurs.  The
mutable world of the call is a `CalcEnv`: the current clock, each path's
current signature, and each path's cache file.  The source's 5-minute
wall-clock abort cannot fire inside one pure call (time does not advance
mid-call), so it is not modelled.  The result records the returned size,
the updated environment, and whether a filesystem walk was performed. -/

inductive DirTree where
  | node (files : List (Option Int)) (subs : List (String × DirTree))
  | broken
deriving Repr

/-- Sum of the file sizes of one directory, a stat error contributing 0
(the inner `try/except (OSError, PermissionError): pass`). -/
def fileSum (files : List (Option Int)) : Int :=
  (files.map (fun f => f.getD 0)).sum

mutual

/-- Recursive walk: files of this node plus, for each subdirectory, its
cached size when `read` hits, and otherwise its recursive walk.  `none`
models an unexpected exception escaping the walk. -/
def walkSize (read : String → Option Int) (p : String) :
    DirTree → Option Int
  | .broken => none
  | .node files subs =>
    (walkSubs read p subs).map fun s => fileSum files + s

def walkSubs (read : String → Option Int) (p : String) :
    List (String × DirTree) → Option Int
  | [] => some 0
  | (name, t) :: rest =>
    let child := p ++ "/" ++ name
    match read child with
    | some s => (walkSubs read p rest).map fun r => s + r
    | none =>
      match walkSize read child t with
      | some w => (walkSubs read p rest).map fun r => w + r
      | none => none

end

/-- The world one call runs in: the `time.time()` reading, the current
signature of every path, and the cache file stored at every path. -/
structure CalcEnv where
  now : Int
  sig : String → String
  store : String → CacheFile

/-- Reading `read_cached_folder_size` against the environment's store, with the
path's current signature. -/
def readCacheEnv (env : CalcEnv) (p : String) : Option Int :=
  read_cached_folder_size env.now (env.sig p) (env.store p)

/-- Writing `write_cached_folder_size` (source lines 261-290): store a fresh record
with the current time and the path's current signature. -/
def writeCacheEnv (env : CalcEnv) (p : String) (v : Int) : CalcEnv :=
  { env with
    store := fun q =>
      if q = p then CacheFile.record ⟨some env.now, some v, some (env.sig p)⟩
      else env.store q }

/-- Source lines 293-329.  Returns (size, updated environment, whether a
filesystem walk was performed). -/
def calculate_folder_size_with_cache (env : CalcEnv) (p : String)
    (t : DirTree) : Int × CalcEnv × Bool :=
  match readCacheEnv env p with
  | some s => (s, env, false)
  | none =>
    match walkSize (readCacheEnv env) p t with
    | some total =>
      (total, if 0 < total then writeCacheEnv env p total else env, true)
    | none => (0, env, true)

/-! ## Helper lemmas about the calculator -/

theorem readCacheEnv_writeCacheEnv (env : CalcEnv) (p : String) (v : Int) :
    readCacheEnv (writeCacheEnv env p v) p = some v := by
  simp [readCacheEnv, writeCacheEnv, read_cached_folder_size,
    FOLDER_CACHE_VALIDITY_SECONDS]

theorem fileSum_filterMap (files : List (Option Int)) :
    fileSum files = fileSum ((files.filterMap id).map some) := by
  induction files with
  | nil => rfl
  | cons f rest ih =>
    cases f with
    | none => simpa [fileSum] using ih
    | some a => simp [fileSum] at ih ⊢; omega

/-! ## Claim theorems for the calculator -/

/-- C6 counterexample: for a directory that is empty (walk total 0) and has
no cache record, the first call computes 0 and — the total not being
positive — persists nothing (the environment comes back unchanged), so the
second immediately successive call on the unchanged directory returns the
same value 0 but performs a filesystem walk again, refuting the claim that
the second call never walks. -/
theorem c6_counterexample :
    (calculate_folder_size_with_cache
        ⟨0, fun _ => "s", fun _ => CacheFile.absent⟩ "/d"
        (DirTree.node [] [])).1 = 0 ∧
    (calculate_folder_size_with_cache
        ⟨0, fun _ => "s", fun _ => CacheFile.absent⟩ "/d"
        (DirTree.node [] [])).2.1 =
      ⟨0, fun _ => "s", fun _ => CacheFile.absent⟩ ∧
    (calculate_folder_size_with_cache
        (calculate_folder_size_with_cache
          ⟨0, fun _ => "s", fun _ => CacheFile.absent⟩ "/d"
          (DirTree.node [] [])).2.1 "/d"
        (DirTree.node [] [])).1 = 0 ∧
    (calculate_folder_size_with_cache
        (calculate_folder_size_with_cache
          ⟨0, fun _ => "s", fun _ => CacheFile.absent⟩ "/d"
          (DirTree.node [] [])).2.1 "/d"
        (DirTree.node [] [])).2.2 = true :=
  ⟨rfl, rfl, rfl, rfl⟩

/-- C6 (amended): on an unchanged directory (same tree, same signatures,
same clock), the second of two immediately successive calls always returns
the same value as the first, and — provided the first call was answered
from cache or computed a strictly positive total (the only case in which
the source persists a record) — the second call performs no filesystem
walk, being answered from the record the first call persisted.  When the
first call computes a non-positive total, nothing is persisted and the
second call walks again (see the counterexample). -/
theorem c6_idempotent (env : CalcEnv) (p : String) (t : DirTree) :
    (calculate_folder_size_with_cache
        (calculate_folder_size_with_cache env p t).2.1 p t).1 =
      (calculate_folder_size_with_cache env p t).1 ∧
    ((calculate_folder_size_with_cache env p t).2.2 = false ∨
      0 < (calculate_folder_size_with_cache env p t).1 →
      (calculate_folder_size_with_cache
        (calculate_folder_size_with_cache env p t).2.1 p t).2.2 = false) := by
  rcases hr : readCacheEnv env p with _ | s
  · rcases hw : walkSize (readCacheEnv env) p t with _ | total
    · have h1 : calculate_folder_size_with_cache env p t = (0, env, true) := by
        simp [calculate_folder_size_with_cache, hr, hw]
      rw [h1]
      constructor
      · simp [calculate_folder_size_with_cache, hr, hw]
      · rintro (h | h) <;> simp at h
    · by_cases htot : 0 < total
      · have h1 : calculate_folder_size_with_cache env p t =
            (total, writeCacheEnv env p total, true) := by
          simp [calculate_folder_size_with_cache, hr, hw, htot]
        rw [h1]
        constructor
        · simp [calculate_folder_size_with_cache, readCacheEnv_writeCacheEnv]
        · intro _
          simp [calculate_folder_size_with_cache, readCacheEnv_writeCacheEnv]
      · have h1 : calculate_folder_size_with_cache env p t =
            (total, env, true) := by
          simp [calculate_folder_size_with_cache, hr, hw, htot]
        rw [h1]
        constructor
        · simp [calculate_folder_size_with_cache, hr, hw]
        · rintro (h | h)
          · simp at h
          · exact absurd h htot
  · have h1 : calculate_folder_size_with_cache env p t = (s, env, false) := by
      simp [calculate_folder_size_with_cache, hr]
    rw [h1]
    constructor
    · simp [calculate_folder_size_with_cache, hr]
    · intro _
      simp [calculate_folder_size_with_cache, hr]

/-- Witness for C6 (amended): a directory holding one 5-byte file, with no
prior cache record; the first call computes 5 > 0 and persists it, the
second returns the same value without walking. -/
theorem c6_idempotent_witness :
    (calculate_folder_size_with_cache
        (calculate_folder_size_with_cache
          ⟨0, fun _ => "s", fun _ => CacheFile.absent⟩ "/d"
          (DirTree.node [some 5] [])).2.1 "/d"
        (DirTree.node [some 5] [])).1 =
      (calculate_folder_size_with_cache
        ⟨0, fun _ => "s", fun _ => CacheFile.absent⟩ "/d"
        (DirTree.node [some 5] [])).1 ∧
    (calculate_folder_size_with_cache
        (calculate_folder_size_with_cache
          ⟨0, fun _ => "s", fun _ => CacheFile.absent⟩ "/d"
          (DirTree.node [some 5] [])).2.1 "/d"
        (DirTree.node [some 5] [])).2.2 = false :=
  ⟨(c6_idempotent ⟨0, fun _ => "s", fun _ => CacheFile.absent⟩ "/d"
      (DirTree.node [some 5] [])).1,
    (c6_idempotent ⟨0, fun _ => "s", fun _ => CacheFile.absent⟩ "/d"
      (DirTree.node [some 5] [])).2 (Or.inr (by decide))⟩

/-- C8: during the walk, every per-file stat error is skipped with zero
contribution — a directory's walk result is unchanged when its failing
files are removed — and the walk is not aborted by them; and when the walk
as a whole fails unexpectedly (and the cache missed), the calculation
returns 0 with the environment untouched instead of propagating the
exception (the embedded calculator is a total function, so it can never
raise). -/
theorem c8_error_policy (read : String → Option Int) (p : String)
    (files : List (Option Int)) (subs : List (String × DirTree))
    (env : CalcEnv) (q : String) (t : DirTree)
    (h1 : readCacheEnv env q = none)
    (h2 : walkSize (readCacheEnv env) q t = none) :
    walkSize read p (DirTree.node files subs) =
      walkSize read p (DirTree.node ((files.filterMap id).map some) subs) ∧
    calculate_folder_size_with_cache env q t = (0, env, true) := by
  constructor
  · simp only [walkSize, fileSum_filterMap files]
  · simp [calculate_folder_size_with_cache, h1, h2]

/-- Witness for C8: a directory with one readable 3-byte file and one
unreadable file walks to 3 either way, and a broken subtree with a cold
cache yields 0. -/
theorem c8_error_policy_witness :
    walkSize (fun _ => none) "/d"
        (DirTree.node [some 3, none] []) =
      walkSize (fun _ => none) "/d"
        (DirTree.node (([some 3, none].filterMap id).map some) []) ∧
    calculate_folder_size_with_cache
        ⟨0, fun _ => "s", fun _ => CacheFile.absent⟩ "/d" DirTree.broken =
      (0, ⟨0, fun _ => "s", fun _ => CacheFile.absent⟩, true) :=
  c8_error_policy (fun _ => none) "/d" [some 3, none] []
    ⟨0, fun _ => "s", fun _ => CacheFile.absent⟩ "/d" DirTree.broken
    rfl rfl

/-! ## Stable descending sort on (path, size) pairs

Python's `list.sort(key=lambda x: x[1], reverse=True)` is a stable sort by
size, largest first.  It is embedded as an insertion sort that puts an
element before the first already-placed element whose size is not larger —
so earlier elements stay ahead of later equal-sized ones, exactly the
stable descending order. -/

def insertDesc (x : String × Int) :
    List (String × Int) → List (String × Int)
  | [] => [x]
  | y :: ys => if y.2 ≤ x.2 then x :: y :: ys else y :: insertDesc x ys

def sortDesc : List (String × Int) → List (String × Int)
  | [] => []
  | x :: xs => insertDesc x (sortDesc xs)

/-- The `sizes.sort(key=..., reverse=True); sizes[:top_n]` idiom. -/
def sortDescTake (xs : List (String × Int)) (n : Nat) :
    List (String × Int) :=
  (sortDesc xs).take n

theorem insertDesc_perm (x : String × Int) (l : List (String × Int)) :
    List.Perm (insertDesc x l) (x :: l) := by
  induction l with
  | nil => simp [insertDesc]
  | cons y ys ih =>
    by_cases hc : y.2 ≤ x.2
    · simp [insertDesc, hc]
    · simp only [insertDesc, if_neg hc]
      exact (ih.cons y).trans (List.Perm.swap x y ys)

theorem sortDesc_perm (l : List (String × Int)) :
    List.Perm (sortDesc l) l := by
  induction l with
  | nil => simp [sortDesc]
  | cons x xs ih =>
    exact (insertDesc_perm x (sortDesc xs)).trans (ih.cons x)

theorem insertDesc_pairwise (x : String × Int) (l : List (String × Int))
    (h : l.Pairwise (fun a b => b.2 ≤ a.2)) :
    (insertDesc x l).Pairwise (fun a b => b.2 ≤ a.2) := by
  induction l with
  | nil => simp [insertDesc]
  | cons y ys ih =>
    rw [List.pairwise_cons] at h
    obtain ⟨hy, hys⟩ := h
    by_cases hc : y.2 ≤ x.2
    · simp only [insertDesc, if_pos hc]
      rw [List.pairwise_cons]
      refine ⟨?_, by rw [List.pairwise_cons]; exact ⟨hy, hys⟩⟩
      intro b hb
      rcases List.mem_cons.mp hb with rfl | hb
      · exact hc
      · exact le_trans (hy b hb) hc
    · simp only [insertDesc, if_neg hc]
      rw [List.pairwise_cons]
      constructor
      · intro b hb
        have hb2 : b = x ∨ b ∈ ys := by
          simpa using (insertDesc_perm x ys).mem_iff.mp hb
        rcases hb2 with rfl | hb2
        · omega
        · exact hy b hb2
      · exact ih hys

theorem sortDesc_pairwise (l : List (String × Int)) :
    (sortDesc l).Pairwise (fun a b => b.2 ≤ a.2) := by
  induction l with
  | nil => simp [sortDesc]
  | cons x xs ih => exact insertDesc_pairwise x (sortDesc xs) ih

theorem filter_insertDesc (x : String × Int) (l : List (String × Int))
    (v : Int) :
    (insertDesc x l).filter (fun q => decide (q.2 = v)) =
      if x.2 = v then x :: l.filter (fun q => decide (q.2 = v))
      else l.filter (fun q => decide (q.2 = v)) := by
  induction l with
  | nil =>
    by_cases hxv : x.2 = v <;> simp [insertDesc, List.filter, hxv]
  | cons y ys ih =>
    by_cases hc : y.2 ≤ x.2
    · simp only [insertDesc, if_pos hc]
      by_cases hxv : x.2 = v <;> simp [List.filter_cons, hxv]
    · simp only [insertDesc, if_neg hc, List.filter_cons, ih]
      by_cases hxv : x.2 = v
      · have hyv : ¬y.2 = v := by omega
        simp [hxv, hyv]
      · simp [hxv]

/-- Stability: sorting never reorders elements of equal size — for every
size value, restricting the sorted list to that size gives exactly the
input's elements of that size, in input (discovery) order. -/
theorem filter_sortDesc (l : List (String × Int)) (v : Int) :
    (sortDesc l).filter (fun q => decide (q.2 = v)) =
      l.filter (fun q => decide (q.2 = v)) := by
  induction l with
  | nil => rfl
  | cons x xs ih =>
    show (insertDesc x (sortDesc xs)).filter _ = _
    rw [filter_insertDesc, ih, List.filter_cons]
    by_cases hxv : x.2 = v <;> simp [hxv]

theorem sortDesc_eq_self (l : List (String × Int))
    (h : l.Pairwise (fun a b => b.2 ≤ a.2)) : sortDesc l = l := by
  induction l with
  | nil => rfl
  | cons x xs ih =>
    rw [List.pairwise_cons] at h
    show insertDesc x (sortDesc xs) = x :: xs
    rw [ih h.2]
    cases xs with
    | nil => rfl
    | cons y ys => simp [insertDesc, h.1 y (by simp)]

theorem sortDescTake_idem (xs : List (String × Int)) (n : Nat) :
    sortDescTake (sortDescTake xs n) n = sortDescTake xs n := by
  unfold sortDescTake
  rw [sortDesc_eq_self _
    (List.Pairwise.sublist (List.take_sublist n (sortDesc xs))
      (sortDesc_pairwise xs)),
    List.take_take, Nat.min_self]

/-! ## Volume snapshots (the cache_<volume>.json files)

A persisted snapshot is `{disk_mount, timestamp, percent, level_1: [...]}`
with three levels of `{path, size, level_N+1}` nodes (source lines
400-487).  The slow-fallback's extra root `path`/`size` keys are
display-only and never read back, so they are not modelled. -/

structure L3Node where
  path : String
  size : Int
deriving DecidableEq, Repr

structure L2Node where
  path : String
  size : Int
  level_3 : List L3Node
deriving DecidableEq, Repr

structure L1Node where
  path : String
  size : Int
  level_2 : List L2Node
deriving DecidableEq, Repr

structure Snapshot where
  disk_mount : String
  timestamp : Int
  percent : Rat
  level_1 : List L1Node
deriving DecidableEq, Repr

/-! ## Hierarchical snapshot builder (source lines 332-487)

The builder's inputs are abstracted as a `BuildEnv`: `children` is
`os.scandir` restricted to directories (discovery order), `fastSizes` is
`fast_get_dir_sizes` (one `du` call over a sibling list — `[]` models
timeout/failure), `slowSize` is the per-directory
`calculate_folder_size_with_cache` result, and `percentOf` is
`psutil.disk_usage(mount).percent`. -/

structure BuildEnv where
  children : String → List String
  fastSizes : List String → List (String × Int)
  slowSize : String → Int
  percentOf : String → Rat

/-- Source lines 332-348: size every subdirectory with the per-directory
calculator, sort descending, keep the top `top_n` (empty list on an empty
directory, as well as on an exception). -/
def get_top_subdirs (env : BuildEnv) (directory : String) (top_n : Nat) :
    List (String × Int) :=
  let subdirs := env.children directory
  if subdirs.isEmpty then []
  else sortDescTake (subdirs.map fun d => (d, env.slowSize d)) top_n

/-- Level-3 part of `update_cache_thread` (source lines 448-460): `du` over
the siblings, falling back to `get_top_subdirs`, then sort and truncate. -/
def buildL3 (env : BuildEnv) (p2 : String) (top_n : Nat) : List L3Node :=
  let sub3 := env.children p2
  if sub3.isEmpty then []
  else
    let t3 := env.fastSizes sub3
    let t3 := if t3.isEmpty then get_top_subdirs env p2 top_n else t3
    (sortDescTake t3 top_n).map fun x => ⟨x.1, x.2⟩

/-- Level-2 part of `update_cache_thread` (source lines 432-462). -/
def buildL2 (env : BuildEnv) (p1 : String) (top_n : Nat) : List L2Node :=
  let sub2 := env.children p1
  if sub2.isEmpty then []
  else
    let t2 := env.fastSizes sub2
    let t2 := if t2.isEmpty then get_top_subdirs env p1 top_n else t2
    (sortDescTake t2 top_n).map fun x => ⟨x.1, x.2, buildL3 env x.1 top_n⟩

/-- The slow fallback `get_hierarchical_sizes` (source lines 351-397):
every level is built from `get_top_subdirs` alone. -/
def slowLevel1 (env : BuildEnv) (mount : String) (top_n : Nat) :
    List L1Node :=
  (get_top_subdirs env mount top_n).map fun x1 =>
    ⟨x1.1, x1.2, (get_top_subdirs env x1.1 top_n).map fun x2 =>
      ⟨x2.1, x2.2, (get_top_subdirs env x2.1 top_n).map fun x3 =>
        ⟨x3.1, x3.2⟩⟩⟩

/-- Source lines 400-487: build the snapshot for one volume.  `none` models
the early return on a volume with no subdirectories (nothing is written).
When the level-1 `du` yields nothing the whole tree is built by the slow
fallback. -/
def update_cache_thread (env : BuildEnv) (now : Int) (disk_mount : String)
    (top_n : Nat) : Option Snapshot :=
  let subdirs := env.children disk_mount
  if subdirs.isEmpty then none
  else
    let top1 := env.fastSizes subdirs
    if top1.isEmpty then
      some ⟨disk_mount, now, env.percentOf disk_mount,
        slowLevel1 env disk_mount top_n⟩
    else
      some ⟨disk_mount, now, env.percentOf disk_mount,
        (sortDescTake top1 top_n).map fun x =>
          ⟨x.1, x.2, buildL2 env x.1 top_n⟩⟩

/-- Source lines 476-482: the snapshot file is (over)written only when the
build produced data with a non-empty `level_1`; otherwise the previously
persisted snapshot, if any, is left in place. -/
def persistSnapshot (prev : Option Snapshot) :
    Option Snapshot → Option Snapshot
  | none => prev
  | some s => if s.level_1.isEmpty then prev else some s

/-! ## Consistency reconciler (source lines 489-537)

One pass of `background_cache_fix` over one snapshot: each level-1 node is
compared with the sum of its level-2 children (before those children are
themselves corrected), then each level-2 node with the sum of its level-3
children; a node whose children sum to strictly more gets the sum as its
new size, and the same (path, sum) is written to that directory's
`.mosFolderSize` record.  The snapshot file is rewritten only when the
`modified` flag was set. -/

def l2Sum (l1 : L1Node) : Int := (l1.level_2.map L2Node.size).sum

def l3Sum (l2 : L2Node) : Int := (l2.level_3.map L3Node.size).sum

def fixL2 (l2 : L2Node) : L2Node :=
  if l3Sum l2 > l2.size then { l2 with size := l3Sum l2 } else l2

def fixL1 (l1 : L1Node) : L1Node :=
  { path := l1.path,
    size := if l2Sum l1 > l1.size then l2Sum l1 else l1.size,
    level_2 := l1.level_2.map fixL2 }

def fixSnapshot (s : Snapshot) : Snapshot :=
  { s with level_1 := s.level_1.map fixL1 }

/-- Did the pass correct this level-2 node? -/
def l2Corrected (l2 : L2Node) : Bool := l3Sum l2 > l2.size

/-- Did the pass correct this level-1 node or one of its children? -/
def l1Corrected (l1 : L1Node) : Bool :=
  decide (l2Sum l1 > l1.size) || l1.level_2.any l2Corrected

/-- The source's `modified` flag for one snapshot. -/
def snapModified (s : Snapshot) : Bool := s.level_1.any l1Corrected

/-- The `(path, size)` pairs handed to `write_cached_folder_size` during
the pass, in pass order. -/
def fixWrites (s : Snapshot) : List (String × Int) :=
  s.level_1.flatMap fun l1 =>
    (if l2Sum l1 > l1.size then [(l1.path, l2Sum l1)] else []) ++
    l1.level_2.filterMap fun l2 =>
      if l3Sum l2 > l2.size then some (l2.path, l3Sum l2) else none

/-! ## Helper lemmas about the reconciler -/

theorem ite_gt_eq_max (a b : Int) : (if b > a then b else a) = max a b := by
  rw [Int.max_def]
  split_ifs <;> omega

theorem map_eq_self_iff {α : Type} (f : α → α) (l : List α) :
    l.map f = l ↔ ∀ x ∈ l, f x = x := by
  induction l with
  | nil => simp
  | cons x xs ih => simp [ih]

theorem forall₂_of_map {α : Type} {R : α → α → Prop} (f : α → α)
    (l : List α) (h : ∀ a ∈ l, R a (f a)) : List.Forall₂ R l (l.map f) := by
  induction l with
  | nil => exact List.Forall₂.nil
  | cons x xs ih =>
    exact List.Forall₂.cons (h x (by simp)) (ih fun a ha => h a (by simp [ha]))

theorem fixL2_path (l2 : L2Node) : (fixL2 l2).path = l2.path := by
  unfold fixL2; split_ifs <;> rfl

theorem fixL2_size (l2 : L2Node) :
    (fixL2 l2).size = max l2.size (l3Sum l2) := by
  unfold fixL2
  split_ifs with h <;> simp [Int.max_def] <;> omega

theorem fixL2_level3 (l2 : L2Node) : (fixL2 l2).level_3 = l2.level_3 := by
  unfold fixL2; split_ifs <;> rfl

theorem fixL2_eq_self_iff (l2 : L2Node) :
    fixL2 l2 = l2 ↔ l2Corrected l2 = false := by
  unfold fixL2 l2Corrected
  split_ifs with h
  · simp only [decide_eq_false_iff_not, not_lt]
    constructor
    · intro he
      have := congrArg L2Node.size he
      simp at this
      omega
    · intro hle
      omega
  · simp only [decide_eq_false_iff_not, not_lt, eq_self_iff_true, true_iff]
    omega

theorem fixL1_eq_self_iff (l1 : L1Node) :
    fixL1 l1 = l1 ↔ l1Corrected l1 = false := by
  obtain ⟨p, sz, lvl2⟩ := l1
  simp only [fixL1, l1Corrected, L1Node.mk.injEq, true_and,
    Bool.or_eq_false_iff, List.any_eq_false]
  constructor
  · rintro ⟨hs, hm⟩
    constructor
    · split_ifs at hs with hgt
      · simp only [l2Sum] at hgt hs ⊢
        simp
        omega
      · simpa using hgt
    · intro l2 hl2
      have := (map_eq_self_iff fixL2 lvl2).mp hm l2 hl2
      simpa using (fixL2_eq_self_iff l2).mp this
  · rintro ⟨hgt, hall⟩
    simp only [decide_eq_false_iff_not] at hgt
    refine ⟨by rw [if_neg hgt], ?_⟩
    exact (map_eq_self_iff fixL2 lvl2).mpr fun l2 hl2 =>
      (fixL2_eq_self_iff l2).mpr (by simpa using hall l2 hl2)

theorem fixSnapshot_eq_self_iff (s : Snapshot) :
    fixSnapshot s = s ↔ snapModified s = false := by
  obtain ⟨m, ts, pc, lvl⟩ := s
  simp only [fixSnapshot, snapModified, Snapshot.mk.injEq, true_and,
    List.any_eq_false]
  rw [map_eq_self_iff]
  constructor
  · intro h l1 hl1
    simpa using (fixL1_eq_self_iff l1).mp (h l1 hl1)
  · intro h l1 hl1
    exact (fixL1_eq_self_iff l1).mpr (by simpa using h l1 hl1)

/-! ## Claim theorems for the reconciler -/

/-- C1: one reconciliation pass over a persisted snapshot (i) rewrites each
level-1 node's size to the maximum of its recorded size and the sum of its
level-2 children's (pre-pass) sizes, and each level-2 node's size to the
maximum of its size and the sum of its level-3 children's sizes — so a node
is overwritten with the children's sum exactly when that sum strictly
exceeds it, and no size ever decreases, while paths, tree shape, and the
snapshot's other fields are untouched; (ii) sets the `modified` flag (the
condition under which the snapshot is written back to storage) if and only
if the pass changed the snapshot, i.e. at least one correction applied; and
(iii) issues a per-directory cache overwrite for exactly the corrected
nodes, with the corrected sum. -/
theorem c1_reconciler_pass (s : Snapshot) :
    List.Forall₂ (fun o n =>
        n.path = o.path ∧ n.size = max o.size (l2Sum o) ∧ o.size ≤ n.size ∧
        List.Forall₂ (fun o2 n2 =>
            n2.path = o2.path ∧ n2.size = max o2.size (l3Sum o2) ∧
            o2.size ≤ n2.size ∧ n2.level_3 = o2.level_3)
          o.level_2 n.level_2)
      s.level_1 (fixSnapshot s).level_1 ∧
    (snapModified s = true ↔ fixSnapshot s ≠ s) ∧
    (∀ p : String, ∀ v : Int, (p, v) ∈ fixWrites s ↔
      ((∃ l1 ∈ s.level_1, p = l1.path ∧ v = l2Sum l1 ∧ l1.size < l2Sum l1) ∨
       (∃ l1 ∈ s.level_1, ∃ l2 ∈ l1.level_2,
          p = l2.path ∧ v = l3Sum l2 ∧ l2.size < l3Sum l2))) ∧
    (fixSnapshot s).disk_mount = s.disk_mount ∧
    (fixSnapshot s).timestamp = s.timestamp ∧
    (fixSnapshot s).percent = s.percent := by
  refine ⟨?_, ?_, ?_, rfl, rfl, rfl⟩
  · show List.Forall₂ _ s.level_1 (s.level_1.map fixL1)
    apply forall₂_of_map
    intro l1 _
    refine ⟨rfl, ite_gt_eq_max l1.size (l2Sum l1), ?_, ?_⟩
    · show l1.size ≤ (if l2Sum l1 > l1.size then l2Sum l1 else l1.size)
      split_ifs <;> omega
    · show List.Forall₂ _ l1.level_2 (l1.level_2.map fixL2)
      apply forall₂_of_map
      intro l2 _
      refine ⟨fixL2_path l2, fixL2_size l2, ?_, fixL2_level3 l2⟩
      rw [fixL2_size l2]
      exact le_max_left _ _
  · rw [ne_eq, fixSnapshot_eq_self_iff]
    cases snapModified s <;> simp
  · intro p v
    simp only [fixWrites, List.mem_flatMap, List.mem_append,
      List.mem_filterMap]
    constructor
    · rintro ⟨l1, hl1, hin | ⟨l2, hl2, hif⟩⟩
      · split_ifs at hin with hc
        · simp only [List.mem_singleton, Prod.mk.injEq] at hin
          exact Or.inl ⟨l1, hl1, hin.1, hin.2, hc⟩
        · simp at hin
      · split_ifs at hif with hc
        obtain ⟨hp, hv⟩ := Prod.mk.injEq .. ▸ Option.some.inj hif
        exact Or.inr ⟨l1, hl1, l2, hl2, hp.symm, hv.symm, hc⟩
    · rintro (⟨l1, hl1, rfl, rfl, hlt⟩ | ⟨l1, hl1, l2, hl2, rfl, rfl, hlt⟩)
      · refine ⟨l1, hl1, Or.inl ?_⟩
        simp [hlt]
      · refine ⟨l1, hl1, Or.inr ⟨l2, hl2, ?_⟩⟩
        simp [hlt]

/-- C10: one reconciliation pass is not idempotent.  In the snapshot below
the level-1 node has size 0 with one level-2 child of size 0, which in turn
has a level-3 child of size 10: the pass checks the level-1 node (sum of
children 0, no correction) before correcting the level-2 child to 10, so
after one pass the level-1 node's size 0 is still strictly below its
corrected children's sum 10, and a second pass changes the snapshot
again. -/
theorem c10_not_idempotent :
    ∃ s : Snapshot,
      (∃ l1 ∈ (fixSnapshot s).level_1, l1.size < l2Sum l1) ∧
      fixSnapshot (fixSnapshot s) ≠ fixSnapshot s :=
  ⟨⟨"/m", 0, 0, [⟨"/m/a", 0, [⟨"/m/a/b", 0, [⟨"/m/a/b/c", 10⟩]⟩]⟩]⟩,
    by decide⟩

/-! ## Helper lemmas about the builder -/

theorem map_pathsize_L1 (t : List (String × Int)) (g : String → List L2Node) :
    ((t.map fun x => (⟨x.1, x.2, g x.1⟩ : L1Node)).map
      fun l => (l.path, l.size)) = t := by
  induction t with
  | nil => rfl
  | cons x xs ih => simp [ih]

theorem map_pathsize_L2 (t : List (String × Int)) (g : String → List L3Node) :
    ((t.map fun x => (⟨x.1, x.2, g x.1⟩ : L2Node)).map
      fun l => (l.path, l.size)) = t := by
  induction t with
  | nil => rfl
  | cons x xs ih => simp [ih]

theorem map_pathsize_L3 (t : List (String × Int)) :
    ((t.map fun x => (⟨x.1, x.2⟩ : L3Node)).map
      fun l => (l.path, l.size)) = t := by
  induction t with
  | nil => rfl
  | cons x xs ih => simp [ih]

theorem get_top_subdirs_spec (env : BuildEnv) (dir : String) (n : Nat) :
    ∃ S : List (String × Int), S.map Prod.fst = env.children dir ∧
      get_top_subdirs env dir n = sortDescTake S n := by
  cases hch : (env.children dir).isEmpty
  · refine ⟨(env.children dir).map fun d => (d, env.slowSize d), ?_, ?_⟩
    · simp [List.map_map, Function.comp_def]
    · simp [get_top_subdirs, hch]
  · rw [List.isEmpty_iff] at hch
    exact ⟨[], by simp [hch], by simp [get_top_subdirs, hch, sortDescTake,
      sortDesc]⟩

theorem buildL3_spec (env : BuildEnv) (p2 : String) (n : Nat)
    (hwf : ∀ dirs, env.fastSizes dirs = [] ∨
      (env.fastSizes dirs).map Prod.fst = dirs) :
    ∃ S : List (String × Int), S.map Prod.fst = env.children p2 ∧
      (buildL3 env p2 n).map (fun l => (l.path, l.size)) = sortDescTake S n := by
  cases hch : (env.children p2).isEmpty
  · cases hfast : (env.fastSizes (env.children p2)).isEmpty
    · refine ⟨env.fastSizes (env.children p2), ?_, ?_⟩
      · rcases hwf (env.children p2) with h | h
        · rw [h] at hfast; simp at hfast
        · exact h
      · simp [buildL3, hch, hfast, Function.comp_def]
    · obtain ⟨S0, hS0, hgt⟩ := get_top_subdirs_spec env p2 n
      refine ⟨S0, hS0, ?_⟩
      rw [show (buildL3 env p2 n).map (fun l => (l.path, l.size)) =
        sortDescTake (get_top_subdirs env p2 n) n from by
          simp [buildL3, hch, hfast, Function.comp_def], hgt,
        sortDescTake_idem]
  · rw [List.isEmpty_iff] at hch
    exact ⟨[], by simp [hch], by simp [buildL3, hch, sortDescTake, sortDesc]⟩

theorem buildL2_spec (env : BuildEnv) (p1 : String) (n : Nat)
    (hwf : ∀ dirs, env.fastSizes dirs = [] ∨
      (env.fastSizes dirs).map Prod.fst = dirs) :
    ∃ S : List (String × Int), S.map Prod.fst = env.children p1 ∧
      (buildL2 env p1 n).map (fun l => (l.path, l.size)) = sortDescTake S n := by
  cases hch : (env.children p1).isEmpty
  · cases hfast : (env.fastSizes (env.children p1)).isEmpty
    · refine ⟨env.fastSizes (env.children p1), ?_, ?_⟩
      · rcases hwf (env.children p1) with h | h
        · rw [h] at hfast; simp at hfast
        · exact h
      · simp [buildL2, hch, hfast, Function.comp_def]
    · obtain ⟨S0, hS0, hgt⟩ := get_top_subdirs_spec env p1 n
      refine ⟨S0, hS0, ?_⟩
      rw [show (buildL2 env p1 n).map (fun l => (l.path, l.size)) =
        sortDescTake (get_top_subdirs env p1 n) n from by
          simp [buildL2, hch, hfast, Function.comp_def], hgt,
        sortDescTake_idem]
  · rw [List.isEmpty_iff] at hch
    exact ⟨[], by simp [hch], by simp [buildL2, hch, sortDescTake, sortDesc]⟩

theorem buildL2_members (env : BuildEnv) (p1 : String) (n : Nat)
    (l2 : L2Node) (h : l2 ∈ buildL2 env p1 n) :
    l2.level_3 = buildL3 env l2.path n := by
  cases hch : (env.children p1).isEmpty
  · simp only [buildL2, hch, Bool.false_eq_true, if_false,
      List.mem_map] at h
    obtain ⟨x, _, rfl⟩ := h
    rfl
  · simp [buildL2, hch] at h

/-! ## Claim theorems for the builder -/

/-- C5: a volume rebuild whose result has an empty level-1 list — including
the early return when the volume has no subdirectories at all — writes no
snapshot file, so the previously persisted snapshot (if any) is left
unchanged and remains what readers see. -/
theorem c5_failed_build_not_persisted (env : BuildEnv) (now : Int)
    (mount : String) (top_n : Nat) (prev : Option Snapshot)
    (h : ∀ s : Snapshot, update_cache_thread env now mount top_n = some s →
      s.level_1 = []) :
    persistSnapshot prev (update_cache_thread env now mount top_n) = prev := by
  rcases hu : update_cache_thread env now mount top_n with _ | s
  · rfl
  · simp [persistSnapshot, h s hu]

/-- Witness for C5: a build that produces an empty level-1 list leaves the
previously persisted snapshot in place. -/
theorem c5_failed_build_not_persisted_witness :
    persistSnapshot (some ⟨"/p", 1, 2, [⟨"/p/x", 5, []⟩]⟩)
      (update_cache_thread
        ⟨fun d => if d = "/m" then ["/m/a"] else [], fun _ => [],
          fun _ => 0, fun _ => 0⟩ 0 "/m" 0) =
      some ⟨"/p", 1, 2, [⟨"/p/x", 5, []⟩]⟩ :=
  c5_failed_build_not_persisted _ 0 "/m" 0 _ (by
    intro s hs
    rw [show update_cache_thread
        ⟨fun d => if d = "/m" then ["/m/a"] else [], fun _ => [],
          fun _ => 0, fun _ => 0⟩ 0 "/m" 0 =
        some ⟨"/m", 0, 0, []⟩ from by decide] at hs
    obtain rfl := Option.some.inj hs
    rfl)

/-- C4: (first part) for every sibling list with sizes, the selection used
at every level of the build — stable descending sort then truncation —
keeps exactly `min top_n (number of siblings)` entries, in descending size
order, keeping equal-sized siblings in discovery order (for every size
value, restriction to that size is preserved exactly), and every kept entry
is at least as large as every dropped one (the kept and dropped entries
together being a permutation of the input); (second part) in a built
snapshot every node list at every level is exactly such a selection over
that node's sibling directories (each sibling paired with an acquired
size), and deeper levels exist only under the retained nodes. -/
theorem c4_top_n_selection :
    (∀ (xs : List (String × Int)) (n : Nat),
      (sortDescTake xs n).length = min n xs.length ∧
      List.Perm (sortDesc xs) xs ∧
      (sortDesc xs).Pairwise (fun a b => b.2 ≤ a.2) ∧
      (∀ v : Int, (sortDesc xs).filter (fun q => decide (q.2 = v)) =
        xs.filter (fun q => decide (q.2 = v))) ∧
      sortDescTake xs n ++ (sortDesc xs).drop n = sortDesc xs ∧
      (∀ a ∈ sortDescTake xs n, ∀ b ∈ (sortDesc xs).drop n, b.2 ≤ a.2)) ∧
    (∀ (env : BuildEnv) (now : Int) (mount : String) (n : Nat)
        (snap : Snapshot),
      (∀ dirs, env.fastSizes dirs = [] ∨
        (env.fastSizes dirs).map Prod.fst = dirs) →
      update_cache_thread env now mount n = some snap →
      (∃ S : List (String × Int), S.map Prod.fst = env.children mount ∧
        snap.level_1.map (fun l => (l.path, l.size)) = sortDescTake S n) ∧
      (∀ l1 ∈ snap.level_1,
        ∃ S : List (String × Int), S.map Prod.fst = env.children l1.path ∧
          l1.level_2.map (fun l => (l.path, l.size)) = sortDescTake S n) ∧
      (∀ l1 ∈ snap.level_1, ∀ l2 ∈ l1.level_2,
        ∃ S : List (String × Int), S.map Prod.fst = env.children l2.path ∧
          l2.level_3.map (fun l => (l.path, l.size)) = sortDescTake S n)) := by
  constructor
  · intro xs n
    refine ⟨?_, sortDesc_perm xs, sortDesc_pairwise xs, filter_sortDesc xs,
      List.take_append_drop n (sortDesc xs), ?_⟩
    · rw [sortDescTake, List.length_take, (sortDesc_perm xs).length_eq]
    · intro a ha b hb
      have hp := sortDesc_pairwise xs
      rw [← List.take_append_drop n (sortDesc xs)] at hp
      exact (List.pairwise_append.mp hp).2.2 a ha b hb
  · intro env now mount n snap hwf hu
    simp only [update_cache_thread] at hu
    cases hch : (env.children mount).isEmpty
    · rw [hch] at hu
      simp only [Bool.false_eq_true, if_false] at hu
      cases hfast : (env.fastSizes (env.children mount)).isEmpty
      · rw [hfast] at hu
        simp only [Bool.false_eq_true, if_false] at hu
        obtain rfl := Option.some.inj hu.symm
        refine ⟨?_, ?_, ?_⟩
        · refine ⟨env.fastSizes (env.children mount), ?_, ?_⟩
          · rcases hwf (env.children mount) with h | h
            · rw [h] at hfast; simp at hfast
            · exact h
          · exact map_pathsize_L1 _ (fun p => buildL2 env p n)
        · intro l1 hl1
          obtain ⟨x, _, rfl⟩ := List.mem_map.mp hl1
          exact buildL2_spec env x.1 n hwf
        · intro l1 hl1 l2 hl2
          obtain ⟨x, _, rfl⟩ := List.mem_map.mp hl1
          rw [buildL2_members env x.1 n l2 hl2]
          exact buildL3_spec env l2.path n hwf
      · rw [hfast] at hu
        simp only [if_pos rfl] at hu
        obtain rfl := Option.some.inj hu.symm
        refine ⟨?_, ?_, ?_⟩
        · obtain ⟨S, hS, hg⟩ := get_top_subdirs_spec env mount n
          refine ⟨S, hS, ?_⟩
          rw [← hg]
          exact map_pathsize_L1 _ (fun p =>
            (get_top_subdirs env p n).map fun x2 =>
              ⟨x2.1, x2.2, (get_top_subdirs env x2.1 n).map fun x3 =>
                ⟨x3.1, x3.2⟩⟩)
        · intro l1 hl1
          obtain ⟨x1, _, rfl⟩ := List.mem_map.mp hl1
          obtain ⟨S, hS, hg⟩ := get_top_subdirs_spec env x1.1 n
          refine ⟨S, hS, ?_⟩
          rw [← hg]
          exact map_pathsize_L2 _ (fun p =>
            (get_top_subdirs env p n).map fun x3 => ⟨x3.1, x3.2⟩)
        · intro l1 hl1 l2 hl2
          obtain ⟨x1, _, rfl⟩ := List.mem_map.mp hl1
          obtain ⟨x2, _, rfl⟩ := List.mem_map.mp hl2
          obtain ⟨S, hS, hg⟩ := get_top_subdirs_spec env x2.1 n
          refine ⟨S, hS, ?_⟩
          rw [← hg]
          exact map_pathsize_L3 _
    · rw [hch] at hu
      simp only [if_pos rfl] at hu
      exact absurd hu (by simp)

/-- Witness for C4: a concrete two-sibling volume built with `top_n = 5`;
the built level-1 list is the stable descending selection over the sibling
sizes returned by the bulk tool. -/
theorem c4_top_n_selection_witness :
    ∃ S : List (String × Int),
      S.map Prod.fst =
        (⟨fun d => if d = "/m" then ["/m/a", "/m/b"] else [],
          fun dirs => dirs.map fun d => (d, 3),
          fun _ => 0, fun _ => 0⟩ : BuildEnv).children "/m" ∧
      ([⟨"/m/a", 3, []⟩, ⟨"/m/b", 3, []⟩] : List L1Node).map
        (fun l => (l.path, l.size)) = sortDescTake S 5 :=
  (c4_top_n_selection.2
    ⟨fun d => if d = "/m" then ["/m/a", "/m/b"] else [],
      fun dirs => dirs.map fun d => (d, 3), fun _ => 0, fun _ => 0⟩
    0 "/m" 5 ⟨"/m", 0, 0, [⟨"/m/a", 3, []⟩, ⟨"/m/b", 3, []⟩]⟩
    (fun dirs => Or.inr (by simp [Function.comp_def]))
    (by decide)).1

/-! ## Volume cache scheduler (source lines 564-565, 805-831, 942-956)

The display loop keeps `active_threads`, a dict keyed by mount path of the
rebuild threads currently in flight; it is modelled by its key list.  Each
pass first deletes the keys of finished threads, then, per volume, starts a
rebuild thread only when the snapshot is missing or outdated AND the mount
is not already a key.  The manual refresh (`r`) deletes the persisted
snapshot and starts a rebuild only when the mount is not already a key. -/

/-- Source lines 564-565: `timestamp is None or now - timestamp > max_age`. -/
def is_cache_outdated (now : Int) (timestamp : Option Int)
    (max_age_seconds : Int) : Bool :=
  match timestamp with
  | none => true
  | some t => now - t > max_age_seconds

/-- One scheduling decision (source lines 821-831): returns the new
in-flight key list and whether a rebuild task was started.  `ts` is the
persisted snapshot's timestamp (`none` when no snapshot is cached). -/
def scheduleRebuild (now : Int) (inflight : List String) (mount : String)
    (ts : Option Int) : List String × Bool :=
  if (ts.isNone || is_cache_outdated now ts DISK_CACHE_VALIDITY_SECONDS) &&
      !(inflight.contains mount)
  then (mount :: inflight, true)
  else (inflight, false)

/-- The manual refresh key (source lines 942-956): the snapshot file is
deleted unconditionally, then a rebuild starts only if none is in flight.
Returns the stored snapshot after deletion, the new in-flight key list, and
whether a task was started. -/
def manualRefresh (inflight : List String) (mount : String)
    (_stored : Option Snapshot) : Option Snapshot × List String × Bool :=
  (none,
    if inflight.contains mount then (inflight, false)
    else (mount :: inflight, true))

/-- Thread cleanup (source lines 806-812): a finished task's key is deleted
from `active_threads`, whether the rebuild succeeded or failed. -/
def finishTask (inflight : List String) (mount : String) : List String :=
  inflight.filter fun m => decide (m ≠ mount)

/-- C3: at most one rebuild is ever in flight per volume.  A scheduling
pass starts a rebuild only if the mount is not already in the in-flight
set, and records the mount when it starts one, so scheduling the same
volume again while its rebuild is in flight starts nothing; the manual
user-triggered refresh obeys the same rule; and a finished task's in-flight
marker is removed, so a later pass can retry. -/
theorem c3_at_most_one_rebuild (now now2 : Int) (inflight : List String)
    (mount : String) (ts ts2 : Option Int) (stored : Option Snapshot) :
    (inflight.contains mount = true →
      (scheduleRebuild now inflight mount ts).2 = false) ∧
    ((scheduleRebuild now inflight mount ts).2 = true →
      inflight.contains mount = false) ∧
    ((scheduleRebuild now inflight mount ts).2 = true →
      (scheduleRebuild now inflight mount ts).1.contains mount = true) ∧
    ((scheduleRebuild now inflight mount ts).2 = true →
      (scheduleRebuild now2 (scheduleRebuild now inflight mount ts).1 mount
        ts2).2 = false) ∧
    (inflight.contains mount = true →
      (manualRefresh inflight mount stored).2.2 = false) ∧
    ((manualRefresh inflight mount stored).2.2 = true →
      inflight.contains mount = false) ∧
    (finishTask inflight mount).contains mount = false := by
  cases hmem : inflight.contains mount with
  | true =>
    have hm : mount ∈ inflight := by simpa using hmem
    refine ⟨fun _ => ?_, fun hs => ?_, fun hs => ?_, fun hs => ?_,
      fun _ => ?_, fun hs => ?_, ?_⟩
    · simp [scheduleRebuild, hm]
    · simp [scheduleRebuild, hm] at hs
    · simp [scheduleRebuild, hm] at hs
    · simp [scheduleRebuild, hm] at hs
    · simp [manualRefresh, hm]
    · simp [manualRefresh, hm] at hs
    · simp [finishTask]
  | false =>
    have hm : mount ∉ inflight := by simpa using hmem
    refine ⟨fun h => absurd h Bool.false_ne_true, fun _ => rfl,
      fun hs => ?_, fun hs => ?_,
      fun h => absurd h Bool.false_ne_true, fun _ => rfl, ?_⟩
    · by_cases hneed : (ts.isNone ||
        is_cache_outdated now ts DISK_CACHE_VALIDITY_SECONDS) = true
      · simp [scheduleRebuild, hm, hneed]
      · simp [scheduleRebuild, hm, hneed] at hs
    · by_cases hneed : (ts.isNone ||
        is_cache_outdated now ts DISK_CACHE_VALIDITY_SECONDS) = true
      · have h1 : scheduleRebuild now inflight mount ts =
            (mount :: inflight, true) := by
          simp [scheduleRebuild, hm, hneed]
        rw [h1]
        simp [scheduleRebuild]
      · simp [scheduleRebuild, hm, hneed] at hs
    · simp [finishTask]

/-- Witness for C3: with "/v" in flight neither the scheduler nor the
manual refresh starts a task; after a cold-cache start for "/v" a second
pass starts nothing; and cleanup removes the marker. -/
theorem c3_at_most_one_rebuild_witness :
    (scheduleRebuild 0 ["/v"] "/v" none).2 = false ∧
    (scheduleRebuild 5 (scheduleRebuild 0 [] "/v" none).1 "/v" none).2 =
      false ∧
    (manualRefresh ["/v"] "/v" none).2.2 = false ∧
    (finishTask ["/v"] "/v").contains "/v" = false :=
  ⟨(c3_at_most_one_rebuild 0 0 ["/v"] "/v" none none none).1 (by decide),
    (c3_at_most_one_rebuild 0 5 [] "/v" none none none).2.2.2.1 (by decide),
    (c3_at_most_one_rebuild 0 0 ["/v"] "/v" none none
      none).2.2.2.2.1 (by decide),
    (c3_at_most_one_rebuild 0 0 ["/v"] "/v" none none none).2.2.2.2.2.2⟩

/-! ## Physical disk enumeration (source lines 568-612)

`get_physical_disks_info` iterates `psutil.disk_partitions(all=False)`,
skipping macOS system volumes (by mountpoint), pseudo filesystem types and
loop devices, and any volume whose usage lookup raises or whose total is
below 100 MiB; for every kept volume it recomputes
`used = total - free` and `percent = 100 * used / total` (0 when the total
is 0) instead of trusting the facility's own figures.  Percentages are
exact rationals here; the facility result is `Option DiskUsage` (`none`
models an exception, which skips the volume). -/

structure DiskPartition where
  mountpoint : String
  device : String
  fstype : String
deriving DecidableEq, Repr

structure DiskUsage where
  total : Int
  free : Int
deriving DecidableEq, Repr

structure DiskEntry where
  mountpoint : String
  vol_name : String
  total : Int
  used : Int
  free : Int
  percent : Rat
deriving DecidableEq, Repr

/-- Source lines 568-574. -/
def is_system_volume (mountpoint : String) : Bool :=
  ["/System/Volumes/Data", "/System/Volumes/Preboot",
   "/System/Volumes/Update", "/System/Volumes/VM",
   "/System/Volumes/iSCPreboot", "/private/var/vm"].any
    fun p => mountpoint.startsWith p

/-- Python's `needle in hay` substring test, on character lists. -/
def listContainsSub (needle : List Char) : List Char → Bool
  | [] => needle.isEmpty
  | c :: rest => needle.isPrefixOf (c :: rest) || listContainsSub needle rest

def substrIn (needle hay : String) : Bool := listContainsSub needle.data hay.data

/-- Python's `mountpoint.rstrip('/')`. -/
def rstripSlash (s : String) : String :=
  String.mk ((s.data.reverse.dropWhile fun c => c == '/').reverse)

/-- Python's `pathlib.Path(s).name`: the component after the last slash. -/
def pathName (s : String) : String :=
  (((rstripSlash s).splitOn "/").getLast?).getD ""

/-- Source lines 577-580. -/
def get_volume_name (mountpoint : String) : String :=
  if mountpoint = "/" then "root" else pathName mountpoint

def PSEUDO_FSTYPES : List String := ["devfs", "autofs", "tmpfs", "devtmpfs"]

/-- Source lines 583-612. -/
def get_physical_disks_info (parts : List DiskPartition)
    (usageOf : DiskPartition → Option DiskUsage) : List DiskEntry :=
  parts.filterMap fun part =>
    if is_system_volume part.mountpoint then none
    else if PSEUDO_FSTYPES.contains part.fstype ||
        substrIn "loop" part.device then none
    else
      match usageOf part with
      | none => none
      | some usage =>
        if usage.total < 100 * 1024 ^ 2 then none
        else
          let corrected_used := usage.total - usage.free
          let corrected_percent : Rat :=
            if usage.total > 0
            then (100 : Rat) * (corrected_used : Rat) / (usage.total : Rat)
            else 0
          some ⟨part.mountpoint, get_volume_name part.mountpoint,
            usage.total, corrected_used, usage.free, corrected_percent⟩

/-- C9: every entry returned by the disk enumeration comes from a partition
whose usage lookup succeeded, carries `used` recomputed as `total - free`
(so also whenever the facility's own figures are inconsistent) and
`percent = 100 * used / total` (0 when the total is 0), and stems from a
volume of at least 100 MiB whose filesystem type is outside the
pseudo/system set (not a pseudo fstype, not a loop device, not a macOS
system volume). -/
theorem c9_physical_disks (parts : List DiskPartition)
    (usageOf : DiskPartition → Option DiskUsage) (d : DiskEntry)
    (hd : d ∈ get_physical_disks_info parts usageOf) :
    ∃ part ∈ parts, ∃ u : DiskUsage, usageOf part = some u ∧
      d.mountpoint = part.mountpoint ∧
      d.total = u.total ∧ d.free = u.free ∧ d.used = u.total - u.free ∧
      d.percent = (if u.total > 0
        then (100 : Rat) * ((u.total - u.free : Int) : Rat) / (u.total : Rat)
        else 0) ∧
      100 * 1024 ^ 2 ≤ u.total ∧
      PSEUDO_FSTYPES.contains part.fstype = false ∧
      substrIn "loop" part.device = false ∧
      is_system_volume part.mountpoint = false := by
  obtain ⟨part, hpart, hf⟩ := List.mem_filterMap.mp hd
  refine ⟨part, hpart, ?_⟩
  by_cases h1 : is_system_volume part.mountpoint = true
  · rw [if_pos h1] at hf
    exact absurd hf (by simp)
  · rw [if_neg h1] at hf
    by_cases h2 : (PSEUDO_FSTYPES.contains part.fstype ||
        substrIn "loop" part.device) = true
    · rw [if_pos h2] at hf
      exact absurd hf (by simp)
    · rw [if_neg h2] at hf
      rcases hu : usageOf part with _ | u
      · rw [hu] at hf
        exact absurd hf (by simp)
      · rw [hu] at hf
        dsimp only [] at hf
        by_cases h3 : u.total < 100 * 1024 ^ 2
        · rw [if_pos h3] at hf
          exact absurd hf (by simp)
        · rw [if_neg h3] at hf
          obtain rfl := Option.some.inj hf
          rw [Bool.or_eq_true, not_or] at h2
          refine ⟨u, rfl, rfl, rfl, rfl, rfl, rfl, not_lt.mp h3,
            ?_, ?_, ?_⟩
          · simpa using h2.1
          · simpa using h2.2
          · simpa using h1

/-- Witness for C9: one 200 MiB volume with inconsistent facility figures
is returned with `used = total - free = 100 MiB` and `percent = 50`. -/
theorem c9_physical_disks_witness :
    ∃ part ∈ [(⟨"/", "/dev/disk1", "apfs"⟩ : DiskPartition)],
      ∃ u : DiskUsage,
        (fun _ : DiskPartition => some (⟨209715200, 104857600⟩ : DiskUsage))
          part = some u ∧
        (⟨"/", "root", 209715200, 104857600, 104857600, 50⟩ :
          DiskEntry).mountpoint = part.mountpoint ∧
        (⟨"/", "root", 209715200, 104857600, 104857600, 50⟩ :
          DiskEntry).total = u.total ∧
        (⟨"/", "root", 209715200, 104857600, 104857600, 50⟩ :
          DiskEntry).free = u.free ∧
        (⟨"/", "root", 209715200, 104857600, 104857600, 50⟩ :
          DiskEntry).used = u.total - u.free ∧
        (⟨"/", "root", 209715200, 104857600, 104857600, 50⟩ :
          DiskEntry).percent = (if u.total > 0
            then (100 : Rat) * ((u.total - u.free : Int) : Rat) /
              (u.total : Rat)
            else 0) ∧
        100 * 1024 ^ 2 ≤ u.total ∧
        PSEUDO_FSTYPES.contains part.fstype = false ∧
        substrIn "loop" part.device = false ∧
        is_system_volume part.mountpoint = false :=
  c9_physical_disks [⟨"/", "/dev/disk1", "apfs"⟩]
    (fun _ => some ⟨209715200, 104857600⟩)
    ⟨"/", "root", 209715200, 104857600, 104857600, 50⟩
    (by
      have h : get_physical_disks_info [⟨"/", "/dev/disk1", "apfs"⟩]
          (fun _ => some ⟨209715200, 104857600⟩) =
          [⟨"/", "root", 209715200, 104857600, 104857600,
            (100 : Rat) * ((209715200 - 104857600 : Int) : Rat) /
              ((209715200 : Int) : Rat)⟩] := rfl
      rw [h]
      refine List.mem_singleton.mpr ?_
      simp only [DiskEntry.mk.injEq, true_and]
      norm_num)

end DiskView
